import Mathlib

/-!
# twemproxy event layer (src/event)

A shallow embedding of `nc_event.h`, `nc_event.c`, `nc_epoll.c` and the wait
loop of `nc_kqueue.c`.

Conventions of the embedding.
* `int` values are `Int`; bit masks (`uint32_t`, and the small `int` masks of
  `nc_event.h`) are `Nat` with `&&&` and `|||`; a `void *` is a `Nat` address
  with `0` for `NULL`.
* `ASSERT(...)` lines are preconditions: they are not executed by the model and
  appear as hypotheses of the theorems that need them.
* The kernel is the environment. `epoll_ctl` is a transition function on an
  abstract kernel state; every call issued is appended to a log so that the
  theorems can speak about the calls a wrapper makes. `epoll_wait` / `kevent`
  are modelled by the sequence of results the kernel hands back, one per call.
* The callback `event_proc` is an effect: each invocation is recorded as a pair
  `(pointer argument, mask argument)` in the order the calls are made.
-/

namespace Twemproxy

/-! ## nc_event.h -/

def NC_EV_NONE : Nat := 0
def NC_EV_READABLE : Nat := 1
def NC_EV_WRITABLE : Nat := 2
def NC_EV_ERROR : Nat := 4

/-- The C operator `!` on an integer. -/
def c_not (x : Nat) : Nat := if x = 0 then 1 else 0

/-- The null pointer. -/
def NULL : Nat := 0

/-- Fields of `struct nc_event`; `event_data` is the backend state. -/
structure nc_event (state : Type) where
  nevent : Int
  event_proc : Nat
  event_data : state

/-- Fields of `struct conn` used by the event layer. `addr` is the address of
the structure, that is the value of the pointer `c` the wrappers receive. -/
structure conn where
  addr : Nat
  sd : Int
  recv_active : Bool
  send_active : Bool
deriving DecidableEq, Repr

/-- One invocation `event_proc(ptr, mask)`. -/
structure proc_call where
  ptr : Nat
  mask : Nat
deriving DecidableEq, Repr

/-! ## Constants of the system headers

These come from `<sys/epoll.h>`, `<sys/event.h>` and `<errno.h>`, which are not
part of the repository; the values are those of the Linux and BSD ABIs. -/

def EPOLLIN : Nat := 0x001
def EPOLLOUT : Nat := 0x004
def EPOLLERR : Nat := 0x008
def EPOLLHUP : Nat := 0x010
def EPOLLET : Nat := 2147483648

def EPOLL_CTL_ADD : Nat := 1
def EPOLL_CTL_DEL : Nat := 2
def EPOLL_CTL_MOD : Nat := 3

def ENOENT : Int := 2
def EINTR : Int := 4
def EBADF : Int := 9
def EINVAL : Int := 22

def EV_ERROR : Nat := 0x4000
def EVFILT_READ : Int := -1
def EVFILT_WRITE : Int := -2

/-! ## nc_epoll.c -/

namespace epoll

/-- The type `struct epoll_event`: `events` and `data.ptr`. -/
structure epoll_event where
  events : Nat
  data : Nat
deriving DecidableEq, Repr

/-- The backend state `struct nc_event_state`. The `events` buffer of `nevent`
slots is written by the kernel on every `epoll_wait`; its contents travel with
the result of that call (`epoll_wait_ret.events`). -/
structure nc_event_state where
  ep : Int
deriving DecidableEq, Repr

/-- Arguments of one `epoll_ctl(epfd, op, fd, &ee)` call. `event = none` stands
for an `ee` the caller left uninitialised. -/
structure epoll_ctl_args where
  epfd : Int
  op : Nat
  fd : Int
  event : Option epoll_event
deriving DecidableEq, Repr

/-- The environment: the kernel state and the log of `epoll_ctl` calls. -/
structure sys (σ : Type) where
  kernel : σ
  ctl_log : List epoll_ctl_args

/-- The system call `epoll_ctl` against a kernel `k`: returns the status of the
kernel and records the call. -/
def epoll_ctl {σ : Type} (k : σ → epoll_ctl_args → Int × σ) (w : sys σ)
    (a : epoll_ctl_args) : Int × sys σ :=
  ((k w.kernel a).1, { kernel := (k w.kernel a).2, ctl_log := w.ctl_log ++ [a] })

/-- The function `nc_event_add` of `nc_epoll.c`. -/
def nc_event_add {σ : Type} (k : σ → epoll_ctl_args → Int × σ) (w : sys σ)
    (event : nc_event nc_event_state) (fd : Int) (mask : Nat) (new : Nat)
    (edge_t : Nat) (data : Nat) : Int × sys σ :=
  let op := if new = NC_EV_NONE then EPOLL_CTL_ADD else EPOLL_CTL_MOD
  let ev0 := if edge_t ≠ 0 then EPOLLET else 0
  let ev1 := if mask &&& NC_EV_READABLE ≠ 0 then ev0 ||| EPOLLIN else ev0
  let ev2 := if mask &&& NC_EV_WRITABLE ≠ 0 then ev1 ||| EPOLLOUT else ev1
  let r := epoll_ctl k w
    { epfd := event.event_data.ep, op := op, fd := fd,
      event := some { events := ev2, data := data } }
  if r.1 < 0 then (-1, r.2) else (0, r.2)

/-- The function `nc_event_del` of `nc_epoll.c`. -/
def nc_event_del {σ : Type} (k : σ → epoll_ctl_args → Int × σ) (w : sys σ)
    (event : nc_event nc_event_state) (fd : Int) (mask : Nat) (new : Nat)
    (data : Nat) : Int × sys σ :=
  let r :=
    if new = NC_EV_NONE then
      epoll_ctl k w
        { epfd := event.event_data.ep, op := EPOLL_CTL_DEL, fd := fd, event := none }
    else
      let ev0 := EPOLLET
      let ev1 := if mask &&& NC_EV_READABLE ≠ 0 then ev0 ||| EPOLLIN else ev0
      let ev2 := if mask &&& NC_EV_WRITABLE ≠ 0 then ev1 ||| EPOLLOUT else ev1
      epoll_ctl k w
        { epfd := event.event_data.ep, op := EPOLL_CTL_MOD, fd := fd,
          event := some { events := ev2, data := data } }
  if r.1 < 0 then (-1, r.2) else (0, r.2)

/-! ## nc_event.c, built with `NC_HAVE_EPOLL` -/

/-- The function `event_add_out`. -/
def event_add_out {σ : Type} (k : σ → epoll_ctl_args → Int × σ) (w : sys σ)
    (event : nc_event nc_event_state) (c : conn) : Int × sys σ × conn :=
  if c.send_active then (0, w, c)
  else
    let r := nc_event_add k w event c.sd (NC_EV_READABLE ||| NC_EV_WRITABLE)
      (c_not NC_EV_NONE) 1 c.addr
    if r.1 = 0 then (r.1, r.2, { c with send_active := true })
    else (r.1, r.2, c)

/-- The function `event_del_out`. -/
def event_del_out {σ : Type} (k : σ → epoll_ctl_args → Int × σ) (w : sys σ)
    (event : nc_event nc_event_state) (c : conn) : Int × sys σ × conn :=
  if !c.send_active then (0, w, c)
  else
    let r := nc_event_del k w event c.sd NC_EV_WRITABLE (c_not NC_EV_NONE) c.addr
    if r.1 = 0 then (r.1, r.2, { c with send_active := false })
    else (r.1, r.2, c)

/-- The function `event_add_conn`. -/
def event_add_conn {σ : Type} (k : σ → epoll_ctl_args → Int × σ) (w : sys σ)
    (event : nc_event nc_event_state) (c : conn) : Int × sys σ × conn :=
  let r := nc_event_add k w event c.sd (NC_EV_READABLE ||| NC_EV_WRITABLE)
    NC_EV_NONE 1 c.addr
  if r.1 = 0 then (r.1, r.2, { c with send_active := true, recv_active := true })
  else (r.1, r.2, c)

/-- The function `event_del_conn`. -/
def event_del_conn {σ : Type} (k : σ → epoll_ctl_args → Int × σ) (w : sys σ)
    (event : nc_event nc_event_state) (c : conn) : Int × sys σ × conn :=
  let r := nc_event_del k w event c.sd (NC_EV_READABLE ||| NC_EV_WRITABLE)
    NC_EV_NONE c.addr
  if r.1 = 0 then (r.1, r.2, { c with recv_active := false, send_active := false })
  else (r.1, r.2, c)

/-- The function `event_add_st`. -/
def event_add_st {σ : Type} (k : σ → epoll_ctl_args → Int × σ) (w : sys σ)
    (event : nc_event nc_event_state) (fd : Int) : Int × sys σ :=
  nc_event_add k w event fd NC_EV_READABLE NC_EV_NONE 0 NULL

/-- Result of one `epoll_wait(ep, events, nevent, timeout)` call: the value
returned, the `errno` left behind, and the contents of the `events` buffer after
the call. -/
structure epoll_wait_ret where
  nsd : Int
  errno : Int
  events : List epoll_event
deriving DecidableEq, Repr

/-- The mask computed in the body of the dispatch loop of `nc_event_wait` from
`e->events`. -/
def nc_event_wait_mask (events : Nat) : Nat :=
  let mask := 0
  let mask := if events &&& EPOLLERR ≠ 0 then mask ||| NC_EV_ERROR else mask
  let mask :=
    if events &&& EPOLLIN ≠ 0 ∨ events &&& EPOLLHUP ≠ 0 then mask ||| NC_EV_READABLE
    else mask
  let mask := if events &&& EPOLLOUT ≠ 0 then mask ||| NC_EV_WRITABLE else mask
  mask

/-- The loop `for (i = 0; i < nsd; i++)` of `nc_event_wait`, started at index `i`
with `todo = nsd - i` iterations left. The result is the sequence of callback
invocations; `none` is a read of `e_state->events + i` outside the buffer. -/
def nc_event_wait_for (event : nc_event nc_event_state) (buf : List epoll_event) :
    Nat → Nat → Option (List proc_call)
  | _, 0 => some []
  | i, todo + 1 =>
    match buf.get? i with
    | none => none
    | some e =>
      let mask := nc_event_wait_mask e.events
      let now := if event.event_proc ≠ NULL then [proc_call.mk e.data mask] else []
      (nc_event_wait_for event buf (i + 1) todo).map (fun later => now ++ later)

/-- The function `nc_event_wait` of `nc_epoll.c`. The list holds the results of
the successive `epoll_wait` calls; the value is the pair (returned `int`,
callback invocations made), and `none` when the loop is still waiting for the
kernel after the list is used up. -/
def nc_event_wait (event : nc_event nc_event_state) (timeout : Int) :
    List epoll_wait_ret → Option (Int × List proc_call)
  | [] => none
  | r :: rest =>
    if r.nsd > 0 then
      (nc_event_wait_for event r.events 0 r.nsd.toNat).map (fun calls => (r.nsd, calls))
    else if r.nsd = 0 then
      if timeout = -1 then some (-1, []) else some (0, [])
    else if r.errno = EINTR then nc_event_wait event timeout rest
    else some (-1, [])

/-- The function `event_wait` of `nc_event.c`. -/
def event_wait (event : nc_event nc_event_state) (timeout : Int)
    (kernel : List epoll_wait_ret) : Option (Int × List proc_call) :=
  nc_event_wait event timeout kernel

/-! ### A model of the kernel side of `epoll_ctl`

The interest list of one epoll instance, following epoll_ctl(2): `ADD` of a
descriptor already present fails (`EEXIST`), `MOD` and `DEL` of a descriptor not
present fail (`ENOENT`), anything else succeeds and updates the list. -/

/-- Interest list: descriptor to registered event. -/
abbrev epoll_table := Int → Option epoll_event

/-- Kernel transition for one `epoll_ctl` call. -/
def epoll_table_ctl (t : epoll_table) (a : epoll_ctl_args) : Int × epoll_table :=
  if a.op = EPOLL_CTL_ADD then
    match t a.fd, a.event with
    | none, some ee => (0, Function.update t a.fd (some ee))
    | _, _ => (-1, t)
  else if a.op = EPOLL_CTL_MOD then
    match t a.fd, a.event with
    | some _, some ee => (0, Function.update t a.fd (some ee))
    | _, _ => (-1, t)
  else if a.op = EPOLL_CTL_DEL then
    match t a.fd with
    | some _ => (0, Function.update t a.fd none)
    | none => (-1, t)
  else (-1, t)

/-- The four connection wrappers. -/
inductive wrapper_call where
  | addConnection
  | addOutputInterest
  | removeOutputInterest
  | removeConnection
deriving DecidableEq, Repr

/-- One wrapper call on connection `c` against the interest-list kernel. -/
def wrapper_step (event : nc_event nc_event_state) (s : sys epoll_table × conn)
    (op : wrapper_call) : sys epoll_table × conn :=
  match op with
  | .addConnection => (event_add_conn epoll_table_ctl s.1 event s.2).2
  | .addOutputInterest => (event_add_out epoll_table_ctl s.1 event s.2).2
  | .removeOutputInterest => (event_del_out epoll_table_ctl s.1 event s.2).2
  | .removeConnection => (event_del_conn epoll_table_ctl s.1 event s.2).2

/-- The precondition of a wrapper call: the `ASSERT`s on the connection. -/
def wrapper_pre (c : conn) (op : wrapper_call) : Bool :=
  match op with
  | .addConnection => decide (c.sd > 0)
  | .addOutputInterest => decide (c.sd > 0) && c.recv_active
  | .removeOutputInterest => decide (c.sd > 0) && c.recv_active
  | .removeConnection => decide (c.sd > 0)

/-- Run a sequence of wrapper calls; `none` when a call is made outside its
precondition. -/
def wrapper_run (event : nc_event nc_event_state) :
    sys epoll_table × conn → List wrapper_call → Option (sys epoll_table × conn)
  | s, [] => some s
  | s, op :: ops =>
    if wrapper_pre s.2 op then wrapper_run event (wrapper_step event s op) ops else none

/-- The registration of `fd` includes the native bit `bit`. -/
def registered_with (t : epoll_table) (fd : Int) (bit : Nat) : Bool :=
  match t fd with
  | none => false
  | some ee => decide (ee.events &&& bit ≠ 0)

/-- The flag invariant of the data model, on the epoll interest list. -/
def flags_match (s : sys epoll_table × conn) : Prop :=
  (s.2.send_active = true ↔ registered_with s.1.kernel s.2.sd EPOLLOUT = true) ∧
  (s.2.recv_active = true ↔ registered_with s.1.kernel s.2.sd EPOLLIN = true)

end epoll

/-! ## nc_kqueue.c: the wait loop -/

namespace kqueue

/-- The type `struct kevent`. -/
structure kevent where
  ident : Nat
  filter : Int
  flags : Nat
  fflags : Nat
  data : Int
  udata : Nat
deriving DecidableEq, Repr

/-- The backend state `struct nc_event_state` of `nc_kqueue.c`. -/
structure nc_event_state where
  kq : Int
deriving DecidableEq, Repr

/-- Result of one `kevent(kq, NULL, 0, events, nevent, ts)` call: the value
returned, `errno`, and the contents of the `events` buffer after the call. -/
structure kevent_ret where
  nsd : Int
  errno : Int
  events : List kevent
deriving DecidableEq, Repr

/-- The test of the dispatch loop that ends an iteration with `continue`:
`e->flags == EV_ERROR` and `e->data` one of `EBADF`, `EINVAL`, `ENOENT`. -/
def dropped (e : kevent) : Bool :=
  decide (e.flags = EV_ERROR) &&
    (decide (e.data = EBADF) || decide (e.data = EINVAL) || decide (e.data = ENOENT))

/-- The mask an iteration of the dispatch loop computes for an entry that is not
dropped. `NC_ERROR` is a constant of `nc_core.h`, which is not among the
sources, and is a parameter here; it is or-ed into the `uint32_t` mask. -/
def nc_event_wait_mask (NC_ERROR : Int) (e : kevent) : Nat :=
  let mask := 0
  let mask := if e.flags = EV_ERROR then mask ||| (NC_ERROR % 4294967296).toNat else mask
  let mask := if e.filter = EVFILT_READ then mask ||| NC_EV_READABLE else mask
  let mask := if e.filter = EVFILT_WRITE then mask ||| NC_EV_WRITABLE else mask
  mask

/-- The loop `for (i = 0; i < nsd; i++)` of `nc_event_wait` in `nc_kqueue.c`,
started at index `i` with `todo = nsd - i` iterations left. The source reads the
slot as `e_state->events+j` although the only index in scope is the loop counter
`i`; the model reads slot `i`. `none` is a read outside the buffer. -/
def nc_event_wait_for (NC_ERROR : Int) (event : nc_event nc_event_state)
    (buf : List kevent) : Nat → Nat → Option (List proc_call)
  | _, 0 => some []
  | i, todo + 1 =>
    match buf.get? i with
    | none => none
    | some e =>
      if dropped e then nc_event_wait_for NC_ERROR event buf (i + 1) todo
      else
        let mask := nc_event_wait_mask NC_ERROR e
        let now := if event.event_proc ≠ NULL then [proc_call.mk e.udata mask] else []
        (nc_event_wait_for NC_ERROR event buf (i + 1) todo).map (fun later => now ++ later)

/-- The function `nc_event_wait` of `nc_kqueue.c`. The list holds the results of
the successive `kevent` calls (made with a timespec when `timeout != -1` and with
`NULL` otherwise); the value is the pair (returned `int`, callback invocations). -/
def nc_event_wait (NC_ERROR : Int) (event : nc_event nc_event_state) (timeout : Int) :
    List kevent_ret → Option (Int × List proc_call)
  | [] => none
  | r :: rest =>
    if r.nsd > 0 then
      (nc_event_wait_for NC_ERROR event r.events 0 r.nsd.toNat).map
        (fun calls => (r.nsd, calls))
    else if r.nsd = 0 then
      if timeout = -1 then some (-1, []) else some (0, [])
    else if r.errno = EINTR then nc_event_wait NC_ERROR event timeout rest
    else some (-1, [])

end kqueue

end Twemproxy

/-! # Theorems -/

namespace Twemproxy

namespace epoll

/-! ## Helper lemmas for the epoll backend -/

theorem nc_event_wait_for_closed (event : nc_event nc_event_state) (buf : List epoll_event) :
    ∀ (todo i : Nat), i + todo ≤ buf.length →
      nc_event_wait_for event buf i todo =
        some (if event.event_proc ≠ NULL then
          ((buf.drop i).take todo).map
            (fun e => proc_call.mk e.data (nc_event_wait_mask e.events))
          else []) := by
  intro todo
  induction todo with
  | zero => intro i _; simp [nc_event_wait_for]
  | succ n ih =>
    intro i h
    have hi : i < buf.length := by omega
    have hget : buf.get? i = some buf[i] := by simp [List.getElem?_eq_getElem hi]
    have hdrop : buf.drop i = buf[i] :: buf.drop (i + 1) := List.drop_eq_getElem_cons hi
    rw [nc_event_wait_for, hget]
    simp only []
    rw [ih (i + 1) (by omega), hdrop]
    by_cases hp : event.event_proc = NULL
    · simp only [hp, ne_eq, not_true_eq_false, if_false, Option.map_some', List.nil_append]
    · simp only [hp, ne_eq, not_false_eq_true, if_true, Option.map_some', List.take_succ_cons,
        List.map_cons, List.singleton_append]

theorem mask_bits_aux (a b c : Prop) [Decidable a] [Decidable b] [Decidable c] (m : Nat)
    (hm : m = (if c then (if b then (if a then 0 ||| NC_EV_ERROR else 0) ||| NC_EV_READABLE
                  else (if a then 0 ||| NC_EV_ERROR else 0)) ||| NC_EV_WRITABLE
               else (if b then (if a then 0 ||| NC_EV_ERROR else 0) ||| NC_EV_READABLE
                  else (if a then 0 ||| NC_EV_ERROR else 0)))) :
    (m &&& NC_EV_ERROR ≠ 0 ↔ a) ∧ (m &&& NC_EV_READABLE ≠ 0 ↔ b) ∧
    (m &&& NC_EV_WRITABLE ≠ 0 ↔ c) ∧
    m &&& (NC_EV_ERROR ||| NC_EV_READABLE ||| NC_EV_WRITABLE) = m := by
  subst hm
  by_cases ha : a <;> by_cases hb : b <;> by_cases hc : c <;>
    simp only [ha, hb, hc, if_true, if_false, iff_true, iff_false] <;> decide

theorem nc_event_wait_mask_bits (ev : Nat) :
    (nc_event_wait_mask ev &&& NC_EV_ERROR ≠ 0 ↔ ev &&& EPOLLERR ≠ 0) ∧
    (nc_event_wait_mask ev &&& NC_EV_READABLE ≠ 0 ↔
      (ev &&& EPOLLIN ≠ 0 ∨ ev &&& EPOLLHUP ≠ 0)) ∧
    (nc_event_wait_mask ev &&& NC_EV_WRITABLE ≠ 0 ↔ ev &&& EPOLLOUT ≠ 0) ∧
    nc_event_wait_mask ev &&& (NC_EV_ERROR ||| NC_EV_READABLE ||| NC_EV_WRITABLE) =
      nc_event_wait_mask ev :=
  mask_bits_aux _ _ _ _ rfl

theorem nc_event_wait_batch (event : nc_event nc_event_state) (timeout : Int)
    (r : epoll_wait_ret) (rest : List epoll_wait_ret)
    (hn : 0 < r.nsd) (hbuf : r.nsd ≤ r.events.length) :
    nc_event_wait event timeout (r :: rest) =
      some (r.nsd, if event.event_proc ≠ NULL then
        (r.events.take r.nsd.toNat).map
          (fun e => proc_call.mk e.data (nc_event_wait_mask e.events))
        else []) := by
  have h : 0 + r.nsd.toNat ≤ r.events.length := by omega
  simp only [nc_event_wait, gt_iff_lt, hn, if_true,
    nc_event_wait_for_closed event r.events r.nsd.toNat 0 h, Option.map_some', List.drop_zero]

/-! ## C1 -/

/-- C1, as the code behaves: for every connection with `recv_active` and
`send_active` both true and a kernel call that succeeds, `event_del_out` issues
one `EPOLL_CTL_MOD` whose requested events are `EPOLLET | EPOLLOUT`, that is
with `EPOLLOUT` present and `EPOLLIN` absent, returns 0 and clears
`send_active` while `recv_active` stays true. The claim asks for the opposite
interest set (`EPOLLIN` present, `EPOLLOUT` absent). -/
theorem event_del_out_requests_epollout {σ : Type} (k : σ → epoll_ctl_args → Int × σ)
    (w : sys σ) (event : nc_event nc_event_state) (c : conn)
    (hr : c.recv_active = true) (hs : c.send_active = true)
    (hk : ∀ a, 0 ≤ (k w.kernel a).1) :
    ∃ ee : epoll_event,
      (event_del_out k w event c).2.1.ctl_log =
        w.ctl_log ++ [{ epfd := event.event_data.ep, op := EPOLL_CTL_MOD, fd := c.sd,
                        event := some ee }] ∧
      ee.events = EPOLLET ||| EPOLLOUT ∧
      ee.events &&& EPOLLOUT ≠ 0 ∧ ee.events &&& EPOLLIN = 0 ∧
      ee.data = c.addr ∧
      (event_del_out k w event c).1 = 0 ∧
      (event_del_out k w event c).2.2.send_active = false ∧
      (event_del_out k w event c).2.2.recv_active = true := by
  have h1 : (EPOLLET ||| EPOLLOUT) &&& EPOLLOUT ≠ 0 := by decide
  have h2 : (EPOLLET ||| EPOLLOUT) &&& EPOLLIN = 0 := by decide
  refine ⟨⟨EPOLLET ||| EPOLLOUT, c.addr⟩, ?_, rfl, h1, h2, rfl, ?_, ?_, ?_⟩ <;>
    simp [event_del_out, nc_event_del, epoll_ctl, hs, hr, c_not, NC_EV_NONE, NC_EV_WRITABLE,
      NC_EV_READABLE, not_lt.mpr (hk _)]

/-- C1 witness: descriptor 5, both flags set, a kernel that accepts every call. -/
theorem event_del_out_requests_epollout_witness :
    ∃ ee : epoll_event,
      (event_del_out (fun (s : Unit) _ => ((0 : Int), s)) ⟨(), []⟩
          ⟨1024, 1, ⟨3⟩⟩ ⟨100, 5, true, true⟩).2.1.ctl_log =
        [] ++ [{ epfd := 3, op := EPOLL_CTL_MOD, fd := 5, event := some ee }] ∧
      ee.events = EPOLLET ||| EPOLLOUT ∧
      ee.events &&& EPOLLOUT ≠ 0 ∧ ee.events &&& EPOLLIN = 0 ∧
      ee.data = 100 ∧
      (event_del_out (fun (s : Unit) _ => ((0 : Int), s)) ⟨(), []⟩
          ⟨1024, 1, ⟨3⟩⟩ ⟨100, 5, true, true⟩).1 = 0 ∧
      (event_del_out (fun (s : Unit) _ => ((0 : Int), s)) ⟨(), []⟩
          ⟨1024, 1, ⟨3⟩⟩ ⟨100, 5, true, true⟩).2.2.send_active = false ∧
      (event_del_out (fun (s : Unit) _ => ((0 : Int), s)) ⟨(), []⟩
          ⟨1024, 1, ⟨3⟩⟩ ⟨100, 5, true, true⟩).2.2.recv_active = true :=
  event_del_out_requests_epollout (fun (s : Unit) _ => ((0 : Int), s)) ⟨(), []⟩
    ⟨1024, 1, ⟨3⟩⟩ ⟨100, 5, true, true⟩ rfl rfl (fun _ => le_refl 0)

/-! ## C2 -/

/-- C2, evaluated on the code: from an unregistered connection with both flags
false, `addConnection` followed by `removeOutputInterest` (both within their
preconditions, both kernel calls succeeding) ends with `recv_active` true while
the registration has no `EPOLLIN`, and `send_active` false while the
registration has `EPOLLOUT`; the flag invariant does not hold there. -/
theorem flags_diverge_after_event_del_out :
    ∃ s : sys epoll_table × conn,
      wrapper_run ⟨1024, 1, ⟨3⟩⟩ (⟨fun _ => none, []⟩, ⟨100, 5, false, false⟩)
        [wrapper_call.addConnection, wrapper_call.removeOutputInterest] = some s ∧
      s.2.recv_active = true ∧ registered_with s.1.kernel s.2.sd EPOLLIN = false ∧
      s.2.send_active = false ∧ registered_with s.1.kernel s.2.sd EPOLLOUT = true ∧
      s.1.kernel 5 = some ⟨EPOLLET ||| EPOLLOUT, 100⟩ ∧
      ¬ flags_match s := by
  refine ⟨_, rfl, rfl, ?_, rfl, ?_, ?_, ?_⟩
  · decide
  · decide
  · decide
  · intro h
    have := h.2.1 rfl
    revert this
    decide

/-- Every wrapper step other than `removeOutputInterest`, made within its
precondition, keeps the flag invariant on the interest-list kernel. -/
theorem flags_match_step (event : nc_event nc_event_state) (s : sys epoll_table × conn)
    (op : wrapper_call) (hop : op ≠ wrapper_call.removeOutputInterest)
    (hpre : wrapper_pre s.2 op = true) (hinv : flags_match s) :
    flags_match (wrapper_step event s op) := by
  obtain ⟨⟨t, log⟩, c⟩ := s
  have hinv0 := hinv
  obtain ⟨hs, hr⟩ := hinv
  simp only [registered_with] at hs hr
  have hrd : (NC_EV_READABLE ||| NC_EV_WRITABLE) &&& NC_EV_READABLE ≠ 0 := by decide
  have hwr : (NC_EV_READABLE ||| NC_EV_WRITABLE) &&& NC_EV_WRITABLE ≠ 0 := by decide
  have h1 : (1 : Nat) ≠ 0 := by decide
  have hn : c_not NC_EV_NONE ≠ NC_EV_NONE := by decide
  have ho : (EPOLLET ||| EPOLLIN ||| EPOLLOUT) &&& EPOLLOUT ≠ 0 := by decide
  have hi : (EPOLLET ||| EPOLLIN ||| EPOLLOUT) &&& EPOLLIN ≠ 0 := by decide
  cases op with
  | removeOutputInterest => exact absurd rfl hop
  | addConnection =>
    cases ht : t c.sd with
    | none =>
      simp [ht] at hs hr
      simp [wrapper_step, event_add_conn, nc_event_add, epoll_ctl, epoll_table_ctl,
        flags_match, registered_with, ht, hrd, hwr, ho, hi]
    | some ee =>
      simp only [ht] at hs hr
      simp [wrapper_step, event_add_conn, nc_event_add, epoll_ctl, epoll_table_ctl,
        flags_match, registered_with, ht, hrd, hwr, hs, hr, EPOLL_CTL_ADD]
  | addOutputInterest =>
    simp only [wrapper_pre, Bool.and_eq_true] at hpre
    cases hsa : c.send_active with
    | true =>
      have hsame : wrapper_step event (⟨t, log⟩, c) wrapper_call.addOutputInterest =
          (⟨t, log⟩, c) := by
        simp [wrapper_step, event_add_out, hsa]
      rw [hsame]
      exact hinv0
    | false =>
      cases ht : t c.sd with
      | none =>
        simp [ht] at hr
        simp [hr] at hpre
      | some ee =>
        simp [wrapper_step, event_add_out, nc_event_add, epoll_ctl, epoll_table_ctl,
          flags_match, registered_with, ht, hrd, hwr, hsa, hn, ho, hi, hpre.2,
          EPOLL_CTL_ADD, EPOLL_CTL_MOD]
  | removeConnection =>
    cases ht : t c.sd with
    | none =>
      simp [ht] at hs hr
      simp [wrapper_step, event_del_conn, nc_event_del, epoll_ctl, epoll_table_ctl,
        flags_match, registered_with, ht, hs, hr, EPOLL_CTL_ADD, EPOLL_CTL_MOD,
        EPOLL_CTL_DEL]
    | some ee =>
      simp [wrapper_step, event_del_conn, nc_event_del, epoll_ctl, epoll_table_ctl,
        flags_match, registered_with, ht, EPOLL_CTL_ADD, EPOLL_CTL_MOD, EPOLL_CTL_DEL]

/-- Every run of wrapper calls that contains no `removeOutputInterest` and stays
within the preconditions keeps the flag invariant. -/
theorem flags_match_run (event : nc_event nc_event_state) :
    ∀ (ops : List wrapper_call) (s s2 : sys epoll_table × conn),
      wrapper_call.removeOutputInterest ∉ ops → flags_match s →
      wrapper_run event s ops = some s2 → flags_match s2 := by
  intro ops
  induction ops with
  | nil =>
    intro s s2 _ hinv hrun
    simp only [wrapper_run, Option.some.injEq] at hrun
    exact hrun ▸ hinv
  | cons op ops ih =>
    intro s s2 hmem hinv hrun
    have hop : op ≠ wrapper_call.removeOutputInterest :=
      fun h => hmem (h ▸ List.mem_cons_self op ops)
    have hrest : wrapper_call.removeOutputInterest ∉ ops :=
      fun h => hmem (List.mem_cons_of_mem op h)
    by_cases hpre : wrapper_pre s.2 op = true
    · rw [wrapper_run, if_pos hpre] at hrun
      exact ih _ s2 hrest (flags_match_step event s op hop hpre hinv) hrun
    · rw [wrapper_run, if_neg hpre] at hrun
      cases hrun

/-! ## C3 -/

/-- C3: when `epoll_wait` returns a batch of `nsd > 0` events that fits the
buffer and a callback is set, `event_wait` returns and makes `nsd` callback
invocations; the mask of the `i`-th invocation has `NC_EV_ERROR` set iff the
`i`-th event has `EPOLLERR`, `NC_EV_READABLE` set iff it has `EPOLLIN` or
`EPOLLHUP`, `NC_EV_WRITABLE` set iff it has `EPOLLOUT`, and no other bit. -/
theorem event_wait_mask_classification (event : nc_event nc_event_state) (timeout : Int)
    (r : epoll_wait_ret) (rest : List epoll_wait_ret)
    (hn : 0 < r.nsd) (hbuf : r.nsd ≤ r.events.length) (hp : event.event_proc ≠ NULL) :
    ∃ calls : List proc_call,
      event_wait event timeout (r :: rest) = some (r.nsd, calls) ∧
      (calls.length : Int) = r.nsd ∧
      ∀ i c, calls.get? i = some c →
        ∃ e, r.events.get? i = some e ∧
          (c.mask &&& NC_EV_ERROR ≠ 0 ↔ e.events &&& EPOLLERR ≠ 0) ∧
          (c.mask &&& NC_EV_READABLE ≠ 0 ↔
            (e.events &&& EPOLLIN ≠ 0 ∨ e.events &&& EPOLLHUP ≠ 0)) ∧
          (c.mask &&& NC_EV_WRITABLE ≠ 0 ↔ e.events &&& EPOLLOUT ≠ 0) ∧
          c.mask &&& (NC_EV_ERROR ||| NC_EV_READABLE ||| NC_EV_WRITABLE) = c.mask := by
  refine ⟨(r.events.take r.nsd.toNat).map
    (fun e => proc_call.mk e.data (nc_event_wait_mask e.events)), ?_, ?_, ?_⟩
  · rw [event_wait, nc_event_wait_batch event timeout r rest hn hbuf, if_pos hp]
  · simp only [List.length_map, List.length_take]
    omega
  · intro i c hc
    simp only [List.get?_eq_getElem?, List.getElem?_map, Option.map_eq_some'] at hc
    obtain ⟨e, he, rfl⟩ := hc
    rw [List.getElem?_take] at he
    split at he
    · exact ⟨e, by simpa using he, nc_event_wait_mask_bits e.events⟩
    · cases he

/-- C3 witness: one event with `EPOLLIN | EPOLLHUP | EPOLLERR`. -/
theorem event_wait_mask_classification_witness :
    ∃ calls : List proc_call,
      event_wait ⟨1024, 1, ⟨3⟩⟩ 100 (⟨1, 0, [⟨25, 100⟩]⟩ :: []) = some (1, calls) ∧
      (calls.length : Int) = 1 ∧
      ∀ i c, calls.get? i = some c →
        ∃ e, [epoll_event.mk 25 100].get? i = some e ∧
          (c.mask &&& NC_EV_ERROR ≠ 0 ↔ e.events &&& EPOLLERR ≠ 0) ∧
          (c.mask &&& NC_EV_READABLE ≠ 0 ↔
            (e.events &&& EPOLLIN ≠ 0 ∨ e.events &&& EPOLLHUP ≠ 0)) ∧
          (c.mask &&& NC_EV_WRITABLE ≠ 0 ↔ e.events &&& EPOLLOUT ≠ 0) ∧
          c.mask &&& (NC_EV_ERROR ||| NC_EV_READABLE ||| NC_EV_WRITABLE) = c.mask :=
  event_wait_mask_classification ⟨1024, 1, ⟨3⟩⟩ 100 ⟨1, 0, [⟨25, 100⟩]⟩ []
    (by decide) (by decide) (by decide)

/-! ## C4 -/

/-- C4: when the `epoll_wait` call returns 0, `event_wait` makes no callback
invocation, returns -1 if `timeout == -1` and returns 0 if `timeout >= 0`. -/
theorem event_wait_zero_events (event : nc_event nc_event_state) (timeout : Int)
    (r : epoll_wait_ret) (rest : List epoll_wait_ret) (h0 : r.nsd = 0) :
    (timeout = -1 → event_wait event timeout (r :: rest) = some (-1, [])) ∧
    (0 ≤ timeout → event_wait event timeout (r :: rest) = some (0, [])) := by
  constructor
  · intro ht
    simp [event_wait, nc_event_wait, h0, ht]
  · intro ht
    have hne : timeout ≠ -1 := by omega
    simp [event_wait, nc_event_wait, h0, hne]

/-- C4 witness: an empty result under an infinite wait and under a 100 ms wait. -/
theorem event_wait_zero_events_witness :
    event_wait ⟨1024, 1, ⟨3⟩⟩ (-1) (⟨0, 0, []⟩ :: []) = some (-1, []) ∧
    event_wait ⟨1024, 1, ⟨3⟩⟩ 100 (⟨0, 0, []⟩ :: []) = some (0, []) :=
  ⟨(event_wait_zero_events ⟨1024, 1, ⟨3⟩⟩ (-1) ⟨0, 0, []⟩ [] rfl).1 rfl,
   (event_wait_zero_events ⟨1024, 1, ⟨3⟩⟩ 100 ⟨0, 0, []⟩ [] rfl).2 (by decide)⟩

/-! ## C5 -/

/-- C5: a run of `epoll_wait` calls that fail with `EINTR` in front of a result
`r` that is not such a failure leaves `event_wait` with the same return value
and the same callback invocations as `r` alone; and that run returns whenever
the batch of `r` fits the buffer. -/
theorem event_wait_eintr_invisible (event : nc_event nc_event_state) (timeout : Int)
    (pre : List epoll_wait_ret) (r : epoll_wait_ret)
    (hpre : ∀ x ∈ pre, x.nsd < 0 ∧ x.errno = EINTR)
    (hr : ¬ (r.nsd < 0 ∧ r.errno = EINTR)) :
    event_wait event timeout (pre ++ [r]) = event_wait event timeout [r] ∧
    (r.nsd ≤ r.events.length → (event_wait event timeout [r]).isSome = true) := by
  constructor
  · induction pre with
    | nil => rfl
    | cons x xs ih =>
      have hx := hpre x (List.mem_cons_self x xs)
      have h1 : ¬ x.nsd > 0 := by omega
      have h2 : ¬ x.nsd = 0 := by omega
      have ih2 := ih (fun y hy => hpre y (List.mem_cons_of_mem x hy))
      simp only [event_wait] at ih2 ⊢
      rw [List.cons_append, nc_event_wait, if_neg h1, if_neg h2, if_pos hx.2]
      exact ih2
  · intro hb
    by_cases hn : 0 < r.nsd
    · rw [event_wait, nc_event_wait_batch event timeout r [] hn hb]
      rfl
    · by_cases h0 : r.nsd = 0
      · by_cases ht : timeout = -1 <;> simp [event_wait, nc_event_wait, h0, ht]
      · have hlt : r.nsd < 0 := by omega
        have he : r.errno ≠ EINTR := fun h => hr ⟨hlt, h⟩
        simp [event_wait, nc_event_wait, hn, h0, he]

/-- C5 witness: two `EINTR` failures in front of a batch of one readable event. -/
theorem event_wait_eintr_invisible_witness :
    event_wait ⟨1024, 1, ⟨3⟩⟩ 100 ([⟨-1, 4, []⟩, ⟨-1, 4, []⟩] ++ [⟨1, 0, [⟨1, 100⟩]⟩]) =
      event_wait ⟨1024, 1, ⟨3⟩⟩ 100 [⟨1, 0, [⟨1, 100⟩]⟩] ∧
    (event_wait ⟨1024, 1, ⟨3⟩⟩ 100 [⟨1, 0, [⟨1, 100⟩]⟩]).isSome = true :=
  ⟨(event_wait_eintr_invisible ⟨1024, 1, ⟨3⟩⟩ 100 [⟨-1, 4, []⟩, ⟨-1, 4, []⟩]
      ⟨1, 0, [⟨1, 100⟩]⟩ (by decide) (by decide)).1,
   (event_wait_eintr_invisible ⟨1024, 1, ⟨3⟩⟩ 100 [⟨-1, 4, []⟩, ⟨-1, 4, []⟩]
      ⟨1, 0, [⟨1, 100⟩]⟩ (by decide) (by decide)).2 (by decide)⟩

/-! ## C7 -/

/-- C7: when `epoll_wait` returns `n > 0` events, `n` at most the capacity
`nevent` of the buffer it was given, and a callback is set, `event_wait` invokes
the callback once per event, in the order of the buffer, with the `data.ptr` of
the event and its classified mask, and returns `n`; the number of invocations
is at most `nevent`. -/
theorem event_wait_dispatches_batch (event : nc_event nc_event_state) (timeout : Int)
    (r : epoll_wait_ret) (rest : List epoll_wait_ret)
    (hn : 0 < r.nsd) (hcap : r.nsd ≤ event.nevent)
    (hbuf : (r.events.length : Int) = event.nevent) (hp : event.event_proc ≠ NULL) :
    ∃ calls : List proc_call,
      event_wait event timeout (r :: rest) = some (r.nsd, calls) ∧
      calls = (r.events.take r.nsd.toNat).map
        (fun e => proc_call.mk e.data (nc_event_wait_mask e.events)) ∧
      (calls.length : Int) = r.nsd ∧
      (calls.length : Int) ≤ event.nevent := by
  have hb : r.nsd ≤ r.events.length := by omega
  have hlen : (((r.events.take r.nsd.toNat).map
      (fun e => proc_call.mk e.data (nc_event_wait_mask e.events))).length : Int) = r.nsd := by
    simp only [List.length_map, List.length_take]
    omega
  refine ⟨_, ?_, rfl, hlen, ?_⟩
  · rw [event_wait, nc_event_wait_batch event timeout r rest hn hb, if_pos hp]
  · omega

/-- C7 witness: capacity 3, the kernel returns 2 events. -/
theorem event_wait_dispatches_batch_witness :
    ∃ calls : List proc_call,
      event_wait ⟨3, 1, ⟨3⟩⟩ 100 (⟨2, 0, [⟨1, 100⟩, ⟨4, 200⟩, ⟨0, 0⟩]⟩ :: []) =
        some (2, calls) ∧
      calls = ([epoll_event.mk 1 100, ⟨4, 200⟩, ⟨0, 0⟩].take (2 : Int).toNat).map
        (fun e => proc_call.mk e.data (nc_event_wait_mask e.events)) ∧
      (calls.length : Int) = 2 ∧
      (calls.length : Int) ≤ 3 :=
  event_wait_dispatches_batch ⟨3, 1, ⟨3⟩⟩ 100 ⟨2, 0, [⟨1, 100⟩, ⟨4, 200⟩, ⟨0, 0⟩]⟩ []
    (by decide) (by decide) (by decide) (by decide)

/-! ## C8 -/

/-- C8: for a connection with `recv_active` true and a kernel whose call, when
issued, succeeds, two consecutive `event_add_out` calls both return 0, leave
`send_active` true and add at most one `epoll_ctl` call to the log, the second
one changing nothing; likewise two consecutive `event_del_out` calls both
return 0, leave `send_active` false and add at most one `epoll_ctl` call, the
second one changing nothing. -/
theorem event_out_idempotent {σ : Type} (k : σ → epoll_ctl_args → Int × σ)
    (w : sys σ) (event : nc_event nc_event_state) (c : conn)
    (hr : c.recv_active = true) (hk : ∀ a, 0 ≤ (k w.kernel a).1) :
    ((event_add_out k w event c).1 = 0 ∧
      (event_add_out k (event_add_out k w event c).2.1 event
        (event_add_out k w event c).2.2).1 = 0 ∧
      (event_add_out k (event_add_out k w event c).2.1 event
        (event_add_out k w event c).2.2).2 = (event_add_out k w event c).2 ∧
      (event_add_out k w event c).2.2.send_active = true ∧
      (event_add_out k w event c).2.2.recv_active = true ∧
      (event_add_out k w event c).2.1.ctl_log.length ≤ w.ctl_log.length + 1) ∧
    ((event_del_out k w event c).1 = 0 ∧
      (event_del_out k (event_del_out k w event c).2.1 event
        (event_del_out k w event c).2.2).1 = 0 ∧
      (event_del_out k (event_del_out k w event c).2.1 event
        (event_del_out k w event c).2.2).2 = (event_del_out k w event c).2 ∧
      (event_del_out k w event c).2.2.send_active = false ∧
      (event_del_out k w event c).2.2.recv_active = true ∧
      (event_del_out k w event c).2.1.ctl_log.length ≤ w.ctl_log.length + 1) := by
  cases hs : c.send_active <;>
    simp [event_add_out, event_del_out, nc_event_add, nc_event_del, epoll_ctl, hs, hr,
      c_not, NC_EV_NONE, NC_EV_WRITABLE, NC_EV_READABLE, not_lt.mpr (hk _)]

/-- C8 witness: descriptor 5 with only `recv_active` set, a kernel that accepts
every call. -/
theorem event_out_idempotent_witness :
    ((event_add_out (fun (s : Unit) _ => ((0 : Int), s)) ⟨(), []⟩ ⟨1024, 1, ⟨3⟩⟩
        ⟨100, 5, true, false⟩).1 = 0 ∧
      (event_add_out (fun (s : Unit) _ => ((0 : Int), s))
        (event_add_out (fun (s : Unit) _ => ((0 : Int), s)) ⟨(), []⟩ ⟨1024, 1, ⟨3⟩⟩
          ⟨100, 5, true, false⟩).2.1 ⟨1024, 1, ⟨3⟩⟩
        (event_add_out (fun (s : Unit) _ => ((0 : Int), s)) ⟨(), []⟩ ⟨1024, 1, ⟨3⟩⟩
          ⟨100, 5, true, false⟩).2.2).1 = 0 ∧
      (event_add_out (fun (s : Unit) _ => ((0 : Int), s)) ⟨(), []⟩ ⟨1024, 1, ⟨3⟩⟩
        ⟨100, 5, true, false⟩).2.2.send_active = true) :=
  have h := event_out_idempotent (fun (s : Unit) _ => ((0 : Int), s)) ⟨(), []⟩
    ⟨1024, 1, ⟨3⟩⟩ ⟨100, 5, true, false⟩ rfl (fun _ => le_refl 0)
  ⟨h.1.1, h.1.2.1, h.1.2.2.2.1⟩

/-! ## C9 -/

/-- C9: `event_add_conn` issues one `EPOLL_CTL_ADD` (edge-triggered, `EPOLLIN`
and `EPOLLOUT`); when that call succeeds it returns 0 and sets `recv_active` and
`send_active`, when it fails (status below 0) it returns -1 and leaves the
connection as it was. `event_del_conn` issues one `EPOLL_CTL_DEL`; when that
call succeeds it returns 0 and clears both flags, when it fails it returns -1
and leaves the connection as it was. -/
theorem event_conn_flags_follow_status {σ : Type} (k : σ → epoll_ctl_args → Int × σ)
    (w : sys σ) (event : nc_event nc_event_state) (c : conn) :
    event_add_conn k w event c =
      (if (k w.kernel ⟨event.event_data.ep, EPOLL_CTL_ADD, c.sd,
            some ⟨EPOLLET ||| EPOLLIN ||| EPOLLOUT, c.addr⟩⟩).1 < 0 then -1 else 0,
       { kernel := (k w.kernel ⟨event.event_data.ep, EPOLL_CTL_ADD, c.sd,
            some ⟨EPOLLET ||| EPOLLIN ||| EPOLLOUT, c.addr⟩⟩).2,
         ctl_log := w.ctl_log ++ [⟨event.event_data.ep, EPOLL_CTL_ADD, c.sd,
            some ⟨EPOLLET ||| EPOLLIN ||| EPOLLOUT, c.addr⟩⟩] },
       if (k w.kernel ⟨event.event_data.ep, EPOLL_CTL_ADD, c.sd,
            some ⟨EPOLLET ||| EPOLLIN ||| EPOLLOUT, c.addr⟩⟩).1 < 0 then c
       else { c with send_active := true, recv_active := true }) ∧
    event_del_conn k w event c =
      (if (k w.kernel ⟨event.event_data.ep, EPOLL_CTL_DEL, c.sd, none⟩).1 < 0 then -1 else 0,
       { kernel := (k w.kernel ⟨event.event_data.ep, EPOLL_CTL_DEL, c.sd, none⟩).2,
         ctl_log := w.ctl_log ++ [⟨event.event_data.ep, EPOLL_CTL_DEL, c.sd, none⟩] },
       if (k w.kernel ⟨event.event_data.ep, EPOLL_CTL_DEL, c.sd, none⟩).1 < 0 then c
       else { c with recv_active := false, send_active := false }) := by
  have hr : (NC_EV_READABLE ||| NC_EV_WRITABLE) &&& NC_EV_READABLE ≠ 0 := by decide
  have hw : (NC_EV_READABLE ||| NC_EV_WRITABLE) &&& NC_EV_WRITABLE ≠ 0 := by decide
  have h1 : (1 : Nat) ≠ 0 := by decide
  constructor
  · simp only [event_add_conn, nc_event_add, epoll_ctl, if_pos hr, if_pos hw, if_pos h1,
      if_true]
    split_ifs <;> first | rfl | (exfalso; simp_all)
  · simp only [event_del_conn, nc_event_del, epoll_ctl, if_true]
    split_ifs <;> first | rfl | (exfalso; simp_all)

/-! ## C10 -/

/-- C10: for every descriptor `fd > 0`, `event_add_st` issues exactly one
`epoll_ctl` call, an `EPOLL_CTL_ADD` for `fd` whose events are `EPOLLIN` alone
(no `EPOLLOUT`, no `EPOLLET`) and whose `data.ptr` is `NULL`, and returns 0 when
that call succeeds and -1 when it fails, which is the status of the call. -/
theorem event_add_st_registers_readable {σ : Type} (k : σ → epoll_ctl_args → Int × σ)
    (w : sys σ) (event : nc_event nc_event_state) (fd : Int) (_hfd : 0 < fd) :
    ∃ ee : epoll_event,
      ee.events = EPOLLIN ∧
      ee.events &&& EPOLLIN ≠ 0 ∧ ee.events &&& EPOLLOUT = 0 ∧ ee.events &&& EPOLLET = 0 ∧
      ee.data = NULL ∧
      (event_add_st k w event fd).2 =
        { kernel := (k w.kernel ⟨event.event_data.ep, EPOLL_CTL_ADD, fd, some ee⟩).2,
          ctl_log := w.ctl_log ++ [⟨event.event_data.ep, EPOLL_CTL_ADD, fd, some ee⟩] } ∧
      (event_add_st k w event fd).1 =
        (if (k w.kernel ⟨event.event_data.ep, EPOLL_CTL_ADD, fd, some ee⟩).1 < 0 then -1
         else 0) ∧
      (((k w.kernel ⟨event.event_data.ep, EPOLL_CTL_ADD, fd, some ee⟩).1 = 0 ∨
        (k w.kernel ⟨event.event_data.ep, EPOLL_CTL_ADD, fd, some ee⟩).1 = -1) →
        (event_add_st k w event fd).1 =
          (k w.kernel ⟨event.event_data.ep, EPOLL_CTL_ADD, fd, some ee⟩).1) := by
  have h1 : EPOLLIN &&& EPOLLIN ≠ 0 := by decide
  have h2 : EPOLLIN &&& EPOLLOUT = 0 := by decide
  have h3 : EPOLLIN &&& EPOLLET = 0 := by decide
  have hev : (if NC_EV_READABLE &&& NC_EV_WRITABLE ≠ 0 then
      (if NC_EV_READABLE &&& NC_EV_READABLE ≠ 0 then
        (if (0 : Nat) ≠ 0 then EPOLLET else 0) ||| EPOLLIN
       else (if (0 : Nat) ≠ 0 then EPOLLET else 0)) ||| EPOLLOUT
      else (if NC_EV_READABLE &&& NC_EV_READABLE ≠ 0 then
        (if (0 : Nat) ≠ 0 then EPOLLET else 0) ||| EPOLLIN
       else (if (0 : Nat) ≠ 0 then EPOLLET else 0))) = EPOLLIN := by decide
  have hop : (if NC_EV_NONE = NC_EV_NONE then EPOLL_CTL_ADD else EPOLL_CTL_MOD) =
      EPOLL_CTL_ADD := by decide
  have hst : event_add_st k w event fd =
      (if (k w.kernel ⟨event.event_data.ep, EPOLL_CTL_ADD, fd, some ⟨EPOLLIN, NULL⟩⟩).1 < 0
        then -1 else 0,
       { kernel := (k w.kernel ⟨event.event_data.ep, EPOLL_CTL_ADD, fd,
            some ⟨EPOLLIN, NULL⟩⟩).2,
         ctl_log := w.ctl_log ++ [⟨event.event_data.ep, EPOLL_CTL_ADD, fd,
            some ⟨EPOLLIN, NULL⟩⟩] }) := by
    simp only [event_add_st, nc_event_add, epoll_ctl, hev, hop]
    split_ifs <;> rfl
  refine ⟨⟨EPOLLIN, NULL⟩, rfl, h1, h2, h3, rfl, ?_, ?_, ?_⟩
  · rw [hst]
  · rw [hst]
  · rw [hst]
    rintro (h | h) <;> simp [h]

/-- C10 witness: descriptor 7 against a kernel that accepts every call. -/
theorem event_add_st_registers_readable_witness :
    ∃ ee : epoll_event,
      ee.events = EPOLLIN ∧
      ee.events &&& EPOLLIN ≠ 0 ∧ ee.events &&& EPOLLOUT = 0 ∧ ee.events &&& EPOLLET = 0 ∧
      ee.data = NULL ∧
      (event_add_st (fun (s : Unit) _ => ((0 : Int), s)) ⟨(), []⟩ ⟨1024, 1, ⟨3⟩⟩ 7).2.ctl_log =
        [⟨3, EPOLL_CTL_ADD, 7, some ee⟩] ∧
      (event_add_st (fun (s : Unit) _ => ((0 : Int), s)) ⟨(), []⟩ ⟨1024, 1, ⟨3⟩⟩ 7).1 = 0 :=
  have ⟨ee, h1, h2, h3, h4, h5, h6, h7, _⟩ :=
    event_add_st_registers_readable (fun (s : Unit) _ => ((0 : Int), s)) ⟨(), []⟩
      ⟨1024, 1, ⟨3⟩⟩ 7 (by decide)
  ⟨ee, h1, h2, h3, h4, h5, by rw [h6]; rfl, by rw [h7]; rfl⟩

end epoll

/-! ## The kqueue wait loop -/

namespace kqueue

end kqueue

end Twemproxy
